import Mathlib

/-!
Verification of the audio codec and quality-analysis pipeline
(`decodeBase64` / `decodeAudioData` / `bufferToWave` / `calculateZCR` /
`analyzeAudioQuality`).

Modelling conventions (shallow embedding):
* Float samples are modelled as exact rationals (`ℚ`); the statistics of the
  quality classifier, which apply `Math.sqrt`, are modelled over `ℝ`.
* Byte sequences are `List ℕ` with every entry < 256 where relevant.
* JavaScript `x | 0` (truncation toward zero) is `truncQ`.
* `new Int16Array(bytes.buffer)` throws a `RangeError` on an odd byte length,
  and `ctx.createBuffer` must (per the Web Audio specification) throw a
  `NotSupportedError` on a non-positive channel count and on a zero frame
  length; these mandated failure exits are modelled with `Except DecodeError`.
  The WebIDL `unsigned long` conversion of the (possibly fractional)
  JavaScript `frameCount` is Nat division.  `createBuffer`'s
  implementation-defined nominal-range limits (maximum channel count,
  supported sample-rate interval) are not modelled: `sampleRate` is carried
  through as an opaque parameter.
-/

/-- An in-memory multi-channel audio buffer: planar float samples at a
declared sample rate (the Web Audio `AudioBuffer` as used by the source). -/
structure AudioBuffer where
  sampleRate : ℕ
  channels : List (List ℚ)

/-- `numberOfChannels` of the buffer. -/
def AudioBuffer.numberOfChannels (b : AudioBuffer) : ℕ := b.channels.length

/-- `getChannelData(i)`. -/
def AudioBuffer.getChannelData (b : AudioBuffer) (i : ℕ) : List ℚ :=
  b.channels.getD i []

/-- The buffer's `length` (number of frames), taken from channel 0. -/
def AudioBuffer.frameCount (b : AudioBuffer) : ℕ := (b.getChannelData 0).length

/-- `buffer.duration = length / sampleRate` (seconds, exact). -/
def AudioBuffer.duration (b : AudioBuffer) : ℚ := (b.frameCount : ℚ) / b.sampleRate

/-- Truncation toward zero on `ℚ`: the JavaScript `x | 0` coercion for values
inside the int32 range. -/
def truncQ (x : ℚ) : ℤ := if x < 0 then -⌊-x⌋ else ⌊x⌋

/-- `Math.max(-1, Math.min(1, s))` from `bufferToWave`. -/
def clamp (s : ℚ) : ℚ := max (-1) (min 1 s)

/-- The sample quantization of `bufferToWave`:
`sample = (0.5 + sample < 0 ? sample * 32768 : sample * 32767) | 0`
applied to the clamped sample. -/
def quantize (s : ℚ) : ℤ :=
  let c := clamp s
  if 0.5 + c < 0 then truncQ (c * 32768) else truncQ (c * 32767)

/-- Little-endian bytes of `view.setUint16(_, v, true)`. -/
def u16le (v : ℕ) : List ℕ := [v % 256, v / 256 % 256]

/-- Little-endian bytes of `view.setUint32(_, v, true)`. -/
def u32le (v : ℕ) : List ℕ :=
  [v % 256, v / 256 % 256, v / 2 ^ 16 % 256, v / 2 ^ 24 % 256]

/-- Little-endian bytes of `view.setInt16(_, v, true)` (two's complement). -/
def i16le (v : ℤ) : List ℕ := u16le (v % 65536).toNat

/-- The 44 header bytes written by `bufferToWave` before the sample data;
the byte-offset cursor of the source's `setUint16`/`setUint32` helpers is
realised by sequential `++`.  `length` is the total file length. -/
def wavHeader (abuffer : AudioBuffer) (len : ℕ) : List ℕ :=
  let numOfChan := abuffer.numberOfChannels
  let length := len * numOfChan * 2 + 44
  u32le 0x46464952 ++       -- "RIFF"
  u32le (length - 8) ++     -- file length - 8
  u32le 0x45564157 ++       -- "WAVE"
  u32le 0x20746d66 ++       -- "fmt " chunk
  u32le 16 ++               -- length = 16
  u16le 1 ++                -- PCM (uncompressed)
  u16le numOfChan ++
  u32le abuffer.sampleRate ++
  u32le (abuffer.sampleRate * 2 * numOfChan) ++  -- avg. bytes/sec
  u16le (numOfChan * 2) ++  -- block-align
  u16le 16 ++               -- 16-bit
  u32le 0x61746164 ++       -- "data" chunk
  u32le (length - 44)       -- chunk length (length - pos - 4 with pos = 40)

/-- `bufferToWave(abuffer, len)`: the canonical 44-byte RIFF/WAVE header
followed by the interleaved, clamped, quantized 16-bit little-endian
samples (`while (pos < len) { for (i = 0; i < numOfChan; i++) ... }`). -/
def bufferToWave (abuffer : AudioBuffer) (len : ℕ) : List ℕ :=
  wavHeader abuffer len ++
  (List.range len).flatMap (fun pos =>
    abuffer.channels.flatMap (fun ch => i16le (quantize (ch.getD pos 0))))

/-- Reads back the `k`-th little-endian int16 word of the "data" sub-chunk
(at byte offset `44 + 2k`) of an encoded WAV byte sequence. -/
def dataWord (bytes : List ℕ) (k : ℕ) : ℤ :=
  let lo := bytes.getD (44 + 2 * k) 0
  let hi := bytes.getD (45 + 2 * k) 0
  if lo + 256 * hi < 32768 then (lo + 256 * hi : ℤ) else (lo + 256 * hi : ℤ) - 65536

/-- The failure exits of `decodeAudioData`: `new Int16Array(bytes.buffer)`
throws a `RangeError` on an odd byte count, and `ctx.createBuffer` throws a
`NotSupportedError` both on a non-positive channel count and on a zero
(WebIDL-truncated) frame length. -/
inductive DecodeError where
  | oddByteLength : DecodeError
  | nonPositiveChannelCount : DecodeError
  | zeroFrameCount : DecodeError

/-- Reassembles the interleaved little-endian 16-bit signed words of
`new Int16Array(bytes.buffer)`. -/
def toInt16s : List ℕ → List ℤ
  | lo :: hi :: rest =>
      (if lo + 256 * hi < 32768 then (lo + 256 * hi : ℤ) else (lo + 256 * hi : ℤ) - 65536) ::
      toInt16s rest
  | _ => []

/-- `decodeAudioData` (the PCM decoder), modelled from the byte level on:
interprets the bytes as interleaved int16 little-endian words
(`dataInt16 = toInt16s bytes`), drops any trailing incomplete frame
(`frameCount = (toInt16s bytes).length / numChannels`), and scales every
word by `1 / 32768`.  `ctx.createBuffer` must throw a `NotSupportedError`
when the channel count is non-positive or the (truncated) frame count is
zero, so both exits are errors here; its implementation-defined
nominal-range limits are not modelled. -/
def decodeAudioData (bytes : List ℕ) (sampleRate : ℕ) (numChannels : ℕ) :
    Except DecodeError AudioBuffer :=
  if bytes.length % 2 ≠ 0 then .error .oddByteLength
  else if numChannels = 0 then .error .nonPositiveChannelCount
  else if (toInt16s bytes).length / numChannels = 0 then .error .zeroFrameCount
  else
    .ok ⟨sampleRate, (List.range numChannels).map (fun channel =>
      (List.range ((toInt16s bytes).length / numChannels)).map (fun i =>
        ((toInt16s bytes).getD (i * numChannels + channel) 0 : ℚ) / 32768))⟩

-- Basic facts about the byte helpers.

theorem u16le_length (v : ℕ) : (u16le v).length = 2 := rfl

theorem u32le_length (v : ℕ) : (u32le v).length = 4 := rfl

theorem i16le_length (v : ℤ) : (i16le v).length = 2 := rfl

theorem toInt16s_length : ∀ bytes : List ℕ, (toInt16s bytes).length = bytes.length / 2
  | [] => by simp [toInt16s]
  | [_] => by simp [toInt16s]
  | lo :: hi :: rest => by
      simp [toInt16s, toInt16s_length rest]
      omega

theorem length_flatMap_const {α β : Type} (l : List α) (f : α → List β) (k : ℕ)
    (h : ∀ a, (f a).length = k) : (l.flatMap f).length = l.length * k := by
  induction l with
  | nil => simp
  | cons a t ih => simp [ih, h]; ring

/-- C3 counterexample: the empty byte sequence is even and channelCount 1 is
positive, yet the source does not return a buffer there: `ctx.createBuffer`
throws its mandated zero-length `NotSupportedError`, so no buffer with
frame count `⌊0 / 2 / 1⌋ = 0` is produced. -/
theorem c3_counterexample :
    (([] : List ℕ).length % 2 = 0 ∧ (1 : ℕ) ≤ 1) ∧
    (∃ e, decodeAudioData [] 24000 1 = .error e) ∧
    (decodeAudioData [] 24000 1).map AudioBuffer.frameCount ≠
      .ok (([] : List ℕ).length / 2 / 1) := by
  have he : decodeAudioData [] 24000 1 = .error .zeroFrameCount := rfl
  refine ⟨⟨rfl, le_refl 1⟩, ⟨.zeroFrameCount, he⟩, ?_⟩
  rw [he]
  simp [Except.map]

/-- C3 (amended): for an even byte count, a positive channel count and at
least one whole frame (`⌊bytes.length / 2 / channelCount⌋ ≥ 1`), the decoded
buffer's frame count is `⌊bytes.length / 2 / channelCount⌋`; a trailing
incomplete frame is dropped.  With fewer than one whole frame the decode
instead fails with `createBuffer`'s zero-length error. -/
theorem c3_amended_decode_frameCount (bytes : List ℕ) (sampleRate numChannels : ℕ)
    (heven : bytes.length % 2 = 0) (hc : 1 ≤ numChannels)
    (hframe : 1 ≤ bytes.length / 2 / numChannels) :
    (decodeAudioData bytes sampleRate numChannels).map AudioBuffer.frameCount =
      .ok (bytes.length / 2 / numChannels) := by
  unfold decodeAudioData
  rw [if_neg (by omega), if_neg (by omega), if_neg (by rw [toInt16s_length]; omega)]
  simp only [Except.map]
  have hr : 0 ∈ List.range numChannels := by
    simp [List.mem_range]; omega
  simp [AudioBuffer.frameCount, AudioBuffer.getChannelData,
    List.getD_eq_getElem?_getD, List.getElem?_map, List.getElem?_range (by omega : 0 < numChannels),
    toInt16s_length]

/-- C3 witness: four bytes, one channel, frame count 2. -/
theorem c3_amended_decode_frameCount_witness :
    ([0, 0, 0, 0] : List ℕ).length % 2 = 0 ∧ (1 : ℕ) ≤ 1 ∧
    1 ≤ ([0, 0, 0, 0] : List ℕ).length / 2 / 1 ∧
    (decodeAudioData [0, 0, 0, 0] 24000 1).map AudioBuffer.frameCount = .ok 2 :=
  ⟨rfl, le_refl 1, by norm_num, by
    simpa using c3_amended_decode_frameCount [0, 0, 0, 0] 24000 1 rfl (le_refl 1) (by norm_num)⟩

/-- C7 counterexample: two bytes across two channels form an even byte
sequence with a positive channel count, yet the decode fails — the
truncated frame count is 0 and `ctx.createBuffer` must throw — so "fails
exactly when the length is odd or the channel count is non-positive" is
false of the program. -/
theorem c7_counterexample :
    (∃ e, decodeAudioData [0, 0] 24000 2 = .error e) ∧
    ¬ (([0, 0] : List ℕ).length % 2 ≠ 0 ∨ (2 : ℕ) = 0) := by
  have he : decodeAudioData [0, 0] 24000 2 = .error .zeroFrameCount := rfl
  exact ⟨⟨.zeroFrameCount, he⟩, by norm_num⟩

/-- C7 (amended): the decoder fails (with a `DecodeError`) exactly when the
byte length is not a multiple of 2, or the channel count is non-positive,
or the bytes hold fewer than one whole frame
(`⌊bytes.length / 2 / channelCount⌋ = 0`, `createBuffer`'s mandated
zero-length rejection); for every other input it returns an AudioBuffer
without raising. -/
theorem c7_amended_decode_error_iff (bytes : List ℕ) (sampleRate numChannels : ℕ) :
    (∃ e, decodeAudioData bytes sampleRate numChannels = .error e) ↔
      (bytes.length % 2 ≠ 0 ∨ numChannels = 0 ∨ bytes.length / 2 / numChannels = 0) := by
  unfold decodeAudioData
  split_ifs with h1 h2 h3
  · simp [h1]
  · simp [h1, h2]
  · rw [toInt16s_length] at h3
    simp [h1, h2, h3]
  · rw [toInt16s_length] at h3
    simp [h1, h2, h3]

theorem wavHeader_length (b : AudioBuffer) (len : ℕ) : (wavHeader b len).length = 44 := by
  simp [wavHeader, u32le, u16le]

/-- C6: the encoder's output length is exactly `frameLimit * channelCount * 2
+ 44`, and its first 44 bytes are the canonical little-endian RIFF/WAVE
header with the fixed field values ("RIFF", ChunkSize = totalLength - 8,
"WAVE", "fmt ", 16, PCM = 1, NumChannels, SampleRate, ByteRate =
sampleRate * 2 * channelCount, BlockAlign = channelCount * 2,
BitsPerSample = 16, "data", Subchunk2Size = totalLength - 44). -/
theorem c6_encode_length_and_header (b : AudioBuffer) (len : ℕ) :
    (bufferToWave b len).length = len * b.numberOfChannels * 2 + 44 ∧
    (bufferToWave b len).take 44 =
      [0x52, 0x49, 0x46, 0x46] ++
      u32le (len * b.numberOfChannels * 2 + 44 - 8) ++
      [0x57, 0x41, 0x56, 0x45] ++
      [0x66, 0x6d, 0x74, 0x20] ++
      u32le 16 ++
      u16le 1 ++
      u16le b.numberOfChannels ++
      u32le b.sampleRate ++
      u32le (b.sampleRate * 2 * b.numberOfChannels) ++
      u16le (b.numberOfChannels * 2) ++
      u16le 16 ++
      [0x64, 0x61, 0x74, 0x61] ++
      u32le (len * b.numberOfChannels * 2 + 44 - 44) := by
  constructor
  · rw [bufferToWave, List.length_append, wavHeader_length,
      length_flatMap_const _ _ (b.numberOfChannels * 2)
        (fun pos => length_flatMap_const _ _ 2 (fun ch => i16le_length _))]
    simp [AudioBuffer.numberOfChannels]
    ring
  · rw [bufferToWave, show (44 : ℕ) = (wavHeader b len).length from (wavHeader_length b len).symm,
      List.take_left]
    simp [wavHeader, u32le, u16le]

theorem getD_flatMap_uniform {α β : Type} (d : β) (B : ℕ) :
    ∀ (L : List α) (g : α → List β) (q r : ℕ), (∀ a, (g a).length = B) →
      (hq : q < L.length) → r < B →
      (L.flatMap g).getD (q * B + r) d = (g L[q]).getD r d := by
  intro L
  induction L with
  | nil => intro g q r hB hq hr; simp at hq
  | cons a t ih =>
      intro g q r hB hq hr
      cases q with
      | zero =>
          simp only [List.flatMap_cons, Nat.zero_mul, Nat.zero_add]
          rw [List.getD_append _ _ _ _ (by rw [hB]; omega)]
          rfl
      | succ q =>
          simp only [List.flatMap_cons]
          rw [List.getD_append_right _ _ _ _ (by rw [hB]; nlinarith)]
          rw [hB]
          have : (q + 1) * B + r - B = q * B + r := by ring_nf; omega
          rw [this]
          simpa using ih g q r hB (by simpa using hq) hr

theorem truncQ_of_nonneg (x : ℚ) (h : 0 ≤ x) : truncQ x = ⌊x⌋ := by
  rw [truncQ, if_neg (not_lt.mpr h)]

theorem truncQ_of_neg (x : ℚ) (h : x < 0) : truncQ x = ⌈x⌉ := by
  rw [truncQ, if_pos h, Int.floor_neg, neg_neg]

theorem clamp_mem (s : ℚ) : -1 ≤ clamp s ∧ clamp s ≤ 1 :=
  ⟨le_max_left _ _, max_le (by norm_num) (min_le_left _ _)⟩

theorem clamp_of_mem (s : ℚ) (h1 : -1 ≤ s) (h2 : s ≤ 1) : clamp s = s := by
  rw [clamp, min_eq_right h2, max_eq_right h1]

theorem quantize_lb (s : ℚ) : -32768 ≤ quantize s := by
  have hc := clamp_mem s
  rw [quantize]
  split_ifs with h
  · rw [truncQ_of_neg _ (by nlinarith)]
    calc (-32768 : ℤ) = ⌈((-32768 : ℤ) : ℚ)⌉ := (Int.ceil_intCast _).symm
    _ ≤ ⌈clamp s * 32768⌉ := Int.ceil_le_ceil (by push_cast; nlinarith)
  · rcases le_or_lt 0 (clamp s) with h0 | h0
    · rw [truncQ_of_nonneg _ (by positivity)]
      calc (-32768 : ℤ) ≤ ⌊(0 : ℚ)⌋ := by rw [Int.floor_zero]; norm_num
      _ ≤ ⌊clamp s * 32767⌋ := Int.floor_le_floor (by positivity)
    · rw [truncQ_of_neg _ (by nlinarith)]
      calc (-32768 : ℤ) = ⌈((-32768 : ℤ) : ℚ)⌉ := (Int.ceil_intCast _).symm
      _ ≤ ⌈clamp s * 32767⌉ := Int.ceil_le_ceil (by push_cast; nlinarith)

theorem quantize_ub (s : ℚ) : quantize s ≤ 32767 := by
  have hc := clamp_mem s
  rw [quantize]
  split_ifs with h
  · rw [truncQ_of_neg _ (by nlinarith)]
    calc ⌈clamp s * 32768⌉ ≤ ⌈(0 : ℚ)⌉ := Int.ceil_le_ceil (by nlinarith)
    _ ≤ 32767 := by rw [Int.ceil_zero]; norm_num
  · rcases le_or_lt 0 (clamp s) with h0 | h0
    · rw [truncQ_of_nonneg _ (by positivity)]
      calc ⌊clamp s * 32767⌋ ≤ ⌊((32767 : ℤ) : ℚ)⌋ := Int.floor_le_floor (by push_cast; nlinarith)
      _ = 32767 := Int.floor_intCast _
    · rw [truncQ_of_neg _ (by nlinarith)]
      calc ⌈clamp s * 32767⌉ ≤ ⌈(0 : ℚ)⌉ := Int.ceil_le_ceil (by nlinarith)
      _ ≤ 32767 := by rw [Int.ceil_zero]; norm_num

theorem readI16_i16le (v : ℤ) (h1 : -32768 ≤ v) (h2 : v ≤ 32767) :
    (if (i16le v).getD 0 0 + 256 * (i16le v).getD 1 0 < 32768
     then ((i16le v).getD 0 0 + 256 * (i16le v).getD 1 0 : ℤ)
     else ((i16le v).getD 0 0 + 256 * (i16le v).getD 1 0 : ℤ) - 65536) = v := by
  have hm : ((v % 65536).toNat : ℤ) = v % 65536 :=
    Int.toNat_of_nonneg (Int.emod_nonneg v (by norm_num))
  simp only [i16le, u16le, List.getD_cons_zero, List.getD_cons_succ]
  have hrec : (v % 65536).toNat % 256 + 256 * ((v % 65536).toNat / 256 % 256) =
      (v % 65536).toNat := by
    omega
  rw [hrec]
  have hb : (0 : ℤ) ≤ v % 65536 := Int.emod_nonneg v (by norm_num)
  have hub : v % 65536 < 65536 := Int.emod_lt_of_pos v (by norm_num)
  split_ifs with h
  · omega
  · omega

theorem dataWord_bufferToWave (b : AudioBuffer) (len pos i : ℕ)
    (hpos : pos < len) (hi : i < b.numberOfChannels) :
    dataWord (bufferToWave b len) (pos * b.numberOfChannels + i) =
      quantize ((b.channels.getD i []).getD pos 0) := by
  have hblock : ∀ p : ℕ,
      ((fun q => b.channels.flatMap fun ch => i16le (quantize (ch.getD q 0))) p).length =
        b.numberOfChannels * 2 :=
    fun p => length_flatMap_const _ _ 2 (fun ch => i16le_length _)
  have hilen : i < b.channels.length := hi
  have hgetch : b.channels[i] = b.channels.getD i [] := by
    rw [List.getD_eq_getElem _ _ hilen]
  have hbyte : ∀ r : ℕ, r < 2 →
      (bufferToWave b len).getD (44 + (2 * (pos * b.numberOfChannels + i) + r)) 0 =
        (i16le (quantize ((b.channels.getD i []).getD pos 0))).getD r 0 := by
    intro r hr
    have hw : (wavHeader b len).length ≤ 44 + (2 * (pos * b.numberOfChannels + i) + r) := by
      rw [wavHeader_length]; omega
    rw [bufferToWave, List.getD_append_right _ _ _ _ hw, wavHeader_length]
    have e1 : 44 + (2 * (pos * b.numberOfChannels + i) + r) - 44 =
        pos * (b.numberOfChannels * 2) + (i * 2 + r) := by
      have : 2 * (pos * b.numberOfChannels + i) = pos * (b.numberOfChannels * 2) + i * 2 := by
        ring
      omega
    rw [e1, getD_flatMap_uniform 0 (b.numberOfChannels * 2) _ _ pos (i * 2 + r) hblock
      (by simpa using hpos) (by omega)]
    simp only [List.getElem_range]
    rw [getD_flatMap_uniform 0 2 _ _ i r (fun ch => i16le_length _) hilen hr, hgetch]
  have h0 := hbyte 0 (by omega)
  have h1 := hbyte 1 (by omega)
  rw [dataWord]
  have e0 : 44 + 2 * (pos * b.numberOfChannels + i) = 44 + (2 * (pos * b.numberOfChannels + i) + 0) := by
    omega
  have e1 : 45 + 2 * (pos * b.numberOfChannels + i) = 44 + (2 * (pos * b.numberOfChannels + i) + 1) := by
    omega
  rw [e0, e1, h0, h1]
  exact readI16_i16le _ (quantize_lb _) (quantize_ub _)

/-- The quantization rule exactly as the claim words it: every negative
clamped sample scales by 32768, every other clamped sample by 32767,
truncated toward zero.  Stated for comparison with the source's `quantize`. -/
def quantizeClaimed (s : ℚ) : ℤ :=
  let c := clamp s
  if c < 0 then truncQ (c * 32768) else truncQ (c * 32767)

theorem quantize_eval_half_neg :
    quantize (-(1/2)) = -16383 := by
  rw [quantize, clamp_of_mem _ (by norm_num) (by norm_num)]
  rw [if_neg (by norm_num)]
  rw [show (-(1/2) : ℚ) * 32767 = -(32767/2) by norm_num]
  rw [truncQ, if_pos (by norm_num), neg_neg]
  norm_num

/-- C1 counterexample: the encoder's scale test is `0.5 + sample < 0`
(i.e. sample < -0.5), not `sample < 0`.  At the (already clamped, negative)
sample -1/2 the single data word written by `bufferToWave` is
-16383 = trunc(-1/2 * 32767), while the claim's negative-scales-by-32768
rule demands -16384. -/
theorem c1_counterexample :
    dataWord (bufferToWave ⟨8000, [[-(1/2)]]⟩ 1) 0 ≠ quantizeClaimed (-(1/2)) ∧
    dataWord (bufferToWave ⟨8000, [[-(1/2)]]⟩ 1) 0 = -16383 ∧
    quantizeClaimed (-(1/2)) = -16384 := by
  have hch : (⟨8000, [[-(1/2)]]⟩ : AudioBuffer).numberOfChannels = 1 := rfl
  have h := dataWord_bufferToWave ⟨8000, [[-(1/2)]]⟩ 1 0 0 (by norm_num)
    (by rw [hch]; exact Nat.zero_lt_one)
  rw [hch] at h
  norm_num at h
  have hcl : quantizeClaimed (-(1/2)) = -16384 := by
    rw [quantizeClaimed, clamp_of_mem _ (by norm_num) (by norm_num)]
    rw [if_pos (by norm_num)]
    rw [show (-(1/2) : ℚ) * 32768 = -16384 by norm_num]
    rw [truncQ, if_pos (by norm_num), neg_neg]
    norm_num
  refine ⟨?_, ?_, hcl⟩
  · rw [h, quantize_eval_half_neg, hcl]
    norm_num
  · rw [h, quantize_eval_half_neg]

/-- C1 (amended): each 16-bit data word of `bufferToWave` is the clamped
sample, scaled by 32768 when the clamped sample is strictly below -1/2
(the source's `0.5 + sample < 0` test) and by 32767 otherwise — in
particular clamped samples in [-1/2, 0) also scale by 32767 — truncated
toward zero and stored as a signed little-endian 16-bit word. -/
theorem c1_amended_asymmetric_scale (b : AudioBuffer) (len pos i : ℕ)
    (hpos : pos < len) (hi : i < b.numberOfChannels) :
    dataWord (bufferToWave b len) (pos * b.numberOfChannels + i) =
      (if clamp ((b.channels.getD i []).getD pos 0) < -(1/2)
       then truncQ (clamp ((b.channels.getD i []).getD pos 0) * 32768)
       else truncQ (clamp ((b.channels.getD i []).getD pos 0) * 32767)) := by
  rw [dataWord_bufferToWave b len pos i hpos hi, quantize]
  exact if_congr (by constructor <;> intro h <;> linarith) rfl rfl

/-- C1 witness: the amended statement evaluated on a one-sample buffer. -/
theorem c1_amended_asymmetric_scale_witness :
    (0 : ℕ) < 1 ∧ (0 : ℕ) < (⟨8000, [[3/4]]⟩ : AudioBuffer).numberOfChannels ∧
    dataWord (bufferToWave ⟨8000, [[3/4]]⟩ 1) (0 * (⟨8000, [[3/4]]⟩ : AudioBuffer).numberOfChannels + 0) =
      (if clamp ((([[3/4]] : List (List ℚ)).getD 0 []).getD 0 0) < -(1/2)
       then truncQ (clamp ((([[3/4]] : List (List ℚ)).getD 0 []).getD 0 0) * 32768)
       else truncQ (clamp ((([[3/4]] : List (List ℚ)).getD 0 []).getD 0 0) * 32767)) :=
  ⟨Nat.zero_lt_one, Nat.zero_lt_one,
    c1_amended_asymmetric_scale ⟨8000, [[3/4]]⟩ 1 0 0 Nat.zero_lt_one Nat.zero_lt_one⟩

theorem getD_mem_or_eq {α : Type} (l : List α) (n : ℕ) (d : α) :
    l.getD n d ∈ l ∨ l.getD n d = d := by
  rcases lt_or_le n l.length with h | h
  · left
    rw [List.getD_eq_getElem _ _ h]
    exact List.getElem_mem h
  · right
    exact List.getD_eq_default _ _ h

/-- The one-sided round-trip bound forced by the code: quantizing a sample
in [-1, 1] and mapping the word back through division by 32768 moves it by
at most 1/16384 (= 2/32768).  The 1/32767 bound of the claim fails; see the
counterexample. -/
theorem quantize_roundtrip (s : ℚ) (h1 : -1 ≤ s) (h2 : s ≤ 1) :
    |s - (quantize s : ℚ) / 32768| ≤ 1 / 16384 := by
  rw [quantize, clamp_of_mem s h1 h2]
  split_ifs with h
  · rw [truncQ_of_neg _ (by nlinarith)]
    have hle := Int.le_ceil (s * 32768)
    have hlt := Int.ceil_lt_add_one (s * 32768)
    rw [abs_le]
    constructor <;> linarith
  · rcases le_or_lt 0 s with h0 | h0
    · rw [truncQ_of_nonneg _ (by positivity)]
      have hle := Int.floor_le (s * 32767)
      have hlt := Int.lt_floor_add_one (s * 32767)
      rw [abs_le]
      constructor <;> linarith
    · rw [truncQ_of_neg _ (by nlinarith)]
      have hle := Int.le_ceil (s * 32767)
      have hlt := Int.ceil_lt_add_one (s * 32767)
      rw [abs_le]
      constructor <;> linarith

/-- C2 counterexample: for the in-range sample -65531/131068 (≈ -0.499977)
the encoder writes the word -16382, which decodes back to -16382/32768;
the absolute error is 20479/536854528 ≈ 1.25/32768, strictly larger than
1/32767 — the claimed bound fails. -/
theorem c2_counterexample :
    (-1 ≤ -(65531/131068 : ℚ) ∧ -(65531/131068 : ℚ) ≤ 1) ∧
    ¬ (|(-(65531/131068 : ℚ)) -
          (dataWord (bufferToWave ⟨8000, [[-(65531/131068)]]⟩ 1) 0 : ℚ) / 32768| ≤
        1 / 32767) := by
  have hch : (⟨8000, [[-(65531/131068)]]⟩ : AudioBuffer).numberOfChannels = 1 := rfl
  have h := dataWord_bufferToWave ⟨8000, [[-(65531/131068)]]⟩ 1 0 0 (by norm_num)
    (by rw [hch]; exact Nat.zero_lt_one)
  rw [hch] at h
  norm_num at h
  have hq : quantize (-(65531/131068)) = -16382 := by
    rw [quantize, clamp_of_mem _ (by norm_num) (by norm_num)]
    rw [if_neg (by norm_num)]
    rw [show (-(65531/131068) : ℚ) * 32767 = -(65531/4) by norm_num]
    rw [truncQ, if_pos (by norm_num), neg_neg]
    norm_num
  refine ⟨⟨by norm_num, by norm_num⟩, ?_⟩
  rw [h, hq]
  rw [show (((-16382 : ℤ) : ℚ)) = -16382 by norm_num]
  rw [show (-(65531/131068 : ℚ)) - (-16382 : ℚ) / 32768 = -(20479/536854528) by norm_num]
  rw [abs_of_neg (by norm_num), neg_neg]
  norm_num

/-- C2 (amended): for a buffer whose samples all lie in [-1, 1] and any
frame index below the frame limit, the int16 word of the "data" sub-chunk,
mapped back through the PCM decoder's inverse scaling (division by 32768),
reproduces the original sample within 1/16384 absolute error. -/
theorem c2_amended_roundtrip (b : AudioBuffer) (len pos i : ℕ)
    (hpos : pos < len) (hi : i < b.numberOfChannels)
    (hrange : ∀ ch ∈ b.channels, ∀ s ∈ ch, -1 ≤ s ∧ s ≤ 1) :
    |(b.channels.getD i []).getD pos 0 -
        (dataWord (bufferToWave b len) (pos * b.numberOfChannels + i) : ℚ) / 32768| ≤
      1 / 16384 := by
  rw [dataWord_bufferToWave b len pos i hpos hi]
  have hv : -1 ≤ (b.channels.getD i []).getD pos 0 ∧ (b.channels.getD i []).getD pos 0 ≤ 1 := by
    rcases getD_mem_or_eq (b.channels.getD i []) pos 0 with hm | he
    · rcases getD_mem_or_eq b.channels i [] with hcm | hce
      · exact hrange _ hcm _ hm
      · rw [hce] at hm
        simp at hm
    · rw [he]
      norm_num
  exact quantize_roundtrip _ hv.1 hv.2

/-- C2 witness: the amended statement evaluated on a one-sample buffer. -/
theorem c2_amended_roundtrip_witness :
    (0 : ℕ) < 1 ∧ (0 : ℕ) < (⟨8000, [[1/4]]⟩ : AudioBuffer).numberOfChannels ∧
    (∀ ch ∈ ([[1/4]] : List (List ℚ)), ∀ s ∈ ch, -1 ≤ s ∧ s ≤ 1) ∧
    |(([[1/4]] : List (List ℚ)).getD 0 []).getD 0 0 -
        (dataWord (bufferToWave ⟨8000, [[1/4]]⟩ 1) (0 * (⟨8000, [[1/4]]⟩ : AudioBuffer).numberOfChannels + 0) : ℚ) / 32768| ≤
      1 / 16384 := by
  have hr : ∀ ch ∈ ([[1/4]] : List (List ℚ)), ∀ s ∈ ch, -1 ≤ s ∧ s ≤ 1 := by
    intro ch hch s hs
    simp at hch
    rw [hch] at hs
    simp at hs
    rw [hs]
    norm_num
  exact ⟨Nat.zero_lt_one, Nat.zero_lt_one, hr,
    c2_amended_roundtrip ⟨8000, [[1/4]]⟩ 1 0 0 Nat.zero_lt_one Nat.zero_lt_one hr⟩

/-!
The quality classifier.  Samples and window ZCRs stay exact in `ℚ`;
every quantity downstream of `Math.sqrt` (window RMS, RMS standard
deviation, ZCR standard deviation) lives in `ℝ`.
-/

/-- `calculateZCR(buffer)`: sign changes between adjacent samples (zero
counted as non-negative) divided by the window length. -/
def calculateZCR (buffer : List ℚ) : ℚ :=
  (((List.range' 1 (buffer.length - 1)).countP (fun i =>
    decide ((0 ≤ buffer.getD i 0 ∧ buffer.getD (i - 1) 0 < 0) ∨
            (buffer.getD i 0 < 0 ∧ 0 ≤ buffer.getD (i - 1) 0)))) : ℚ) / buffer.length

/-- `windowSizeSamples = Math.floor(sampleRate * 0.05)` (exact: `0.05` is
`5 / 100`). -/
def windowSizeSamples (sampleRate : ℕ) : ℕ := sampleRate * 5 / 100

/-- `data.slice(i * windowSizeSamples, (i + 1) * windowSizeSamples)`. -/
def windowSlice (data : List ℚ) (ws i : ℕ) : List ℚ := (data.drop (i * ws)).take ws

/-- The per-window `sumSquares` accumulator. -/
def sumSquares (w : List ℚ) : ℚ := w.foldl (fun acc s => acc + s * s) 0

/-- `Math.sqrt(sumSquares / windowSizeSamples)` for window `i`. -/
noncomputable def windowRMS (data : List ℚ) (ws i : ℕ) : ℝ :=
  Real.sqrt (((sumSquares (windowSlice data ws i) / (ws : ℚ) : ℚ) : ℝ))

/-- The `windowRMSs` array (one RMS per whole window). -/
noncomputable def windowRMSList (data : List ℚ) (ws n : ℕ) : List ℝ :=
  (List.range n).map (windowRMS data ws)

/-- The `windowZCRs` array. -/
def windowZCRList (data : List ℚ) (ws n : ℕ) : List ℚ :=
  (List.range n).map (fun i => calculateZCR (windowSlice data ws i))

/-- The running `globalPeak` maximum of `Math.abs(sample)`, accumulated
inside the per-window loops (so only over the `n` whole windows). -/
def globalPeak (data : List ℚ) (ws n : ℕ) : ℚ :=
  (List.range n).foldl (fun g i => (windowSlice data ws i).foldl (fun g s => max g |s|) g) 0

/-- Maximum of `Math.abs(sample)` over a whole signal (the value the claim
ascribes to `globalPeak`). -/
def maxAbs (data : List ℚ) : ℚ := data.foldl (fun g s => max g |s|) 0

/-- `avgRMS = totalRMS / totalWindows`. -/
noncomputable def avgRMS (rmss : List ℝ) (n : ℕ) : ℝ := rmss.sum / n

/-- `dynamicThreshold = Math.max(avgRMS * 0.4, 0.02)`. -/
noncomputable def dynamicThreshold (avg : ℝ) : ℝ := max (avg * 0.4) 0.02

/-- `quietWindows`, counted in the loop `for (i = 1; i < length - 1; i++)`
over the windows with `curr < dynamicThreshold`. -/
noncomputable def quietWindows (rmss : List ℝ) (thr : ℝ) : ℕ :=
  (List.range' 1 (rmss.length - 2)).countP (fun i => decide (rmss.getD i 0 < thr))

/-- `activeWindowsCount` from the same loop (`curr > dynamicThreshold`). -/
noncomputable def activeWindowsCount (rmss : List ℝ) (thr : ℝ) : ℕ :=
  (List.range' 1 (rmss.length - 2)).countP (fun i => decide (thr < rmss.getD i 0))

/-- `peakCount`: active windows that are strict local maxima of the RMS
envelope above `avgRMS * 0.8`. -/
noncomputable def peakCount (rmss : List ℝ) (avg thr : ℝ) : ℕ :=
  (List.range' 1 (rmss.length - 2)).countP (fun i =>
    decide (thr < rmss.getD i 0 ∧ rmss.getD (i - 1) 0 < rmss.getD i 0 ∧
            rmss.getD (i + 1) 0 < rmss.getD i 0 ∧ avg * 0.8 < rmss.getD i 0))

/-- `activeZCRs`: ZCRs of the active windows of the same loop. -/
noncomputable def activeZCRList (rmss : List ℝ) (zcrs : List ℚ) (thr : ℝ) : List ℚ :=
  ((List.range' 1 (rmss.length - 2)).filter (fun i => decide (thr < rmss.getD i 0))).map
    (fun i => zcrs.getD i 0)

/-- `quietRatio = quietWindows / totalWindows` (over the feature series of
length `totalWindows`). -/
noncomputable def quietRatioOf (rmss : List ℝ) (thr : ℝ) : ℚ :=
  (quietWindows rmss thr : ℚ) / rmss.length

/-- `avgZCR` (guarded against an empty active set). -/
def avgZCR (azcrs : List ℚ) : ℚ :=
  if 0 < azcrs.length then azcrs.sum / azcrs.length else 0

/-- `zcrStdDev` (guarded against an empty active set). -/
noncomputable def zcrStdDev (azcrs : List ℚ) : ℝ :=
  if 0 < azcrs.length then
    Real.sqrt ((((azcrs.map (fun z => (z - avgZCR azcrs) ^ 2)).sum / azcrs.length : ℚ) : ℝ))
  else 0

/-- `stdDevRMS = Math.sqrt(sumSquaredDiff / totalWindows)`. -/
noncomputable def stdDevRMS (rmss : List ℝ) (avg : ℝ) : ℝ :=
  Real.sqrt ((rmss.map (fun r => (r - avg) ^ 2)).sum / rmss.length)

/-- The rejection reasons of `analyzeAudioQuality` (standing for the
distinct user-facing `reason` strings of the source). -/
inductive Reason where
  | tooShort : Reason
  | tooLarge : Reason
  | tooQuiet : Reason
  | clipping : Reason
  | backgroundNoise : Reason
  | monotone : Reason
  | mostlySilence : Reason
  | tooSlow : Reason
  | tooFast : Reason
  | lacksPitchVariation : Reason

/-- `AudioAnalysisResult`.  All score arithmetic of the source is integer
arithmetic (the final `Math.round` is the identity), so `score : ℤ`. -/
structure AudioAnalysisResult where
  valid : Bool
  reason : Option Reason
  score : ℤ

/-- The volume/clipping gates and the scoring and heuristic gates of
`analyzeAudioQuality`, as a function of the computed statistics (the source
lines from the `avgRMS < 0.01` check to the final return). -/
noncomputable def classifyStats (gPeak : ℚ) (avg cv zStd : ℝ)
    (quietRatioV activeDurationSec peaksPerSecond : ℚ) : AudioAnalysisResult :=
  if avg < 0.01 then ⟨false, some .tooQuiet, 20⟩
  else if 0.99 < gPeak ∧ 0.5 < avg then ⟨false, some .clipping, 30⟩
  else
    let score0 : ℤ :=
      100 - (if avg < 0.05 then 15 else if avg < 0.1 then 5 else 0)
          - (if 0.95 < gPeak then 10 else 0)
          - (if quietRatioV < 0.15 then 20 else 0)
          - (if cv < 0.25 then 15 else 0)
          - (if zStd < 0.005 then 10 else 0)
          - (if peaksPerSecond < 1.5 ∨ 8 < peaksPerSecond then 10 else 0)
    let score : ℤ := max 0 (min 100 score0)
    if quietRatioV < 0.02 ∧ cv < 0.5 then ⟨false, some .backgroundNoise, min score 40⟩
    else if cv < 0.15 then ⟨false, some .monotone, min score 45⟩
    else if 0.95 < quietRatioV then ⟨false, some .mostlySilence, min score 30⟩
    else if peaksPerSecond < 0.5 ∧ 2 < activeDurationSec then ⟨false, some .tooSlow, min score 50⟩
    else if 15 < peaksPerSecond then ⟨false, some .tooFast, min score 50⟩
    else if zStd < 0.001 ∧ 3 < activeDurationSec then ⟨false, some .lacksPitchVariation, min score 55⟩
    else ⟨true, none, score⟩

/-- `analyzeAudioQuality(buffer)`: the ordered gate-and-score classifier,
translated gate for gate from the source (channel 0 only; `console.log`
and the unused `longestPauseWindows` bookkeeping omitted, and `Math.round`
on the already-integer score is the identity). -/
noncomputable def analyzeAudioQuality (buffer : AudioBuffer) : AudioAnalysisResult :=
  let data := buffer.getChannelData 0
  if buffer.duration < 3 then ⟨false, some .tooShort, 0⟩
  else if 300 < buffer.duration then ⟨false, some .tooLarge, 0⟩
  else
    let ws := windowSizeSamples buffer.sampleRate
    let totalWindows := data.length / ws
    let rmss := windowRMSList data ws totalWindows
    let avg := avgRMS rmss totalWindows
    let thr := dynamicThreshold avg
    classifyStats (globalPeak data ws totalWindows) avg
      (stdDevRMS rmss avg / avg)
      (zcrStdDev (activeZCRList rmss (windowZCRList data ws totalWindows) thr))
      (quietRatioOf rmss thr)
      ((activeWindowsCount rmss thr : ℚ) * 0.05)
      (if 0 < (activeWindowsCount rmss thr : ℚ) * 0.05
       then (peakCount rmss avg thr : ℚ) / ((activeWindowsCount rmss thr : ℚ) * 0.05)
       else 0)

/-- C8: any buffer of duration under 3 seconds is rejected immediately as
"too short" with score 0, regardless of content; no later gate or score
deduction runs (the gate returns before they are computed). -/
theorem c8_too_short (b : AudioBuffer) (h : b.duration < 3) :
    analyzeAudioQuality b = ⟨false, some .tooShort, 0⟩ := by
  rw [analyzeAudioQuality, if_pos h]

/-- C8 witness: a 2-second buffer (20 zero frames at 10 Hz). -/
theorem c8_too_short_witness :
    (⟨10, [List.replicate 20 0]⟩ : AudioBuffer).duration < 3 ∧
    analyzeAudioQuality ⟨10, [List.replicate 20 0]⟩ = ⟨false, some .tooShort, 0⟩ := by
  have hd : (⟨10, [List.replicate 20 0]⟩ : AudioBuffer).duration < 3 := by
    rw [AudioBuffer.duration, AudioBuffer.frameCount, AudioBuffer.getChannelData]
    norm_num
  exact ⟨hd, c8_too_short _ hd⟩

theorem finalGates_wellformed (s0 : ℤ) (cv zStd : ℝ) (q a p : ℚ) :
    0 ≤ (if q < 0.02 ∧ cv < 0.5 then (⟨false, some .backgroundNoise, min (max 0 (min 100 s0)) 40⟩ : AudioAnalysisResult)
      else if cv < 0.15 then ⟨false, some .monotone, min (max 0 (min 100 s0)) 45⟩
      else if 0.95 < q then ⟨false, some .mostlySilence, min (max 0 (min 100 s0)) 30⟩
      else if p < 0.5 ∧ 2 < a then ⟨false, some .tooSlow, min (max 0 (min 100 s0)) 50⟩
      else if 15 < p then ⟨false, some .tooFast, min (max 0 (min 100 s0)) 50⟩
      else if zStd < 0.001 ∧ 3 < a then ⟨false, some .lacksPitchVariation, min (max 0 (min 100 s0)) 55⟩
      else ⟨true, none, max 0 (min 100 s0)⟩).score ∧
    (if q < 0.02 ∧ cv < 0.5 then (⟨false, some .backgroundNoise, min (max 0 (min 100 s0)) 40⟩ : AudioAnalysisResult)
      else if cv < 0.15 then ⟨false, some .monotone, min (max 0 (min 100 s0)) 45⟩
      else if 0.95 < q then ⟨false, some .mostlySilence, min (max 0 (min 100 s0)) 30⟩
      else if p < 0.5 ∧ 2 < a then ⟨false, some .tooSlow, min (max 0 (min 100 s0)) 50⟩
      else if 15 < p then ⟨false, some .tooFast, min (max 0 (min 100 s0)) 50⟩
      else if zStd < 0.001 ∧ 3 < a then ⟨false, some .lacksPitchVariation, min (max 0 (min 100 s0)) 55⟩
      else ⟨true, none, max 0 (min 100 s0)⟩).score ≤ 100 ∧
    ((if q < 0.02 ∧ cv < 0.5 then (⟨false, some .backgroundNoise, min (max 0 (min 100 s0)) 40⟩ : AudioAnalysisResult)
      else if cv < 0.15 then ⟨false, some .monotone, min (max 0 (min 100 s0)) 45⟩
      else if 0.95 < q then ⟨false, some .mostlySilence, min (max 0 (min 100 s0)) 30⟩
      else if p < 0.5 ∧ 2 < a then ⟨false, some .tooSlow, min (max 0 (min 100 s0)) 50⟩
      else if 15 < p then ⟨false, some .tooFast, min (max 0 (min 100 s0)) 50⟩
      else if zStd < 0.001 ∧ 3 < a then ⟨false, some .lacksPitchVariation, min (max 0 (min 100 s0)) 55⟩
      else ⟨true, none, max 0 (min 100 s0)⟩).reason.isSome ↔
     (if q < 0.02 ∧ cv < 0.5 then (⟨false, some .backgroundNoise, min (max 0 (min 100 s0)) 40⟩ : AudioAnalysisResult)
      else if cv < 0.15 then ⟨false, some .monotone, min (max 0 (min 100 s0)) 45⟩
      else if 0.95 < q then ⟨false, some .mostlySilence, min (max 0 (min 100 s0)) 30⟩
      else if p < 0.5 ∧ 2 < a then ⟨false, some .tooSlow, min (max 0 (min 100 s0)) 50⟩
      else if 15 < p then ⟨false, some .tooFast, min (max 0 (min 100 s0)) 50⟩
      else if zStd < 0.001 ∧ 3 < a then ⟨false, some .lacksPitchVariation, min (max 0 (min 100 s0)) 55⟩
      else ⟨true, none, max 0 (min 100 s0)⟩).valid = false) := by
  split_ifs <;>
    refine ⟨?_, ?_, ?_⟩ <;>
    simp [Option.isSome]

theorem classifyStats_wellformed (gPeak : ℚ) (avg cv zStd : ℝ)
    (q a p : ℚ) :
    0 ≤ (classifyStats gPeak avg cv zStd q a p).score ∧
    (classifyStats gPeak avg cv zStd q a p).score ≤ 100 ∧
    ((classifyStats gPeak avg cv zStd q a p).reason.isSome ↔
      (classifyStats gPeak avg cv zStd q a p).valid = false) := by
  rw [classifyStats]
  by_cases h1 : avg < 0.01
  · rw [if_pos h1]
    exact ⟨by norm_num, by norm_num, by simp [Option.isSome]⟩
  rw [if_neg h1]
  by_cases h2 : 0.99 < gPeak ∧ 0.5 < avg
  · rw [if_pos h2]
    exact ⟨by norm_num, by norm_num, by simp [Option.isSome]⟩
  rw [if_neg h2]
  exact finalGates_wellformed _ cv zStd q a p

/-- C9: every result of the classifier is well-formed — the score is an
integer in [0, 100] and a reason is present exactly when the verdict is
invalid. -/
theorem c9_result_wellformed (b : AudioBuffer) :
    0 ≤ (analyzeAudioQuality b).score ∧ (analyzeAudioQuality b).score ≤ 100 ∧
    ((analyzeAudioQuality b).reason.isSome ↔ (analyzeAudioQuality b).valid = false) := by
  simp only [analyzeAudioQuality]
  split_ifs <;> first
    | (refine ⟨?_, ?_, ?_⟩ <;> simp [Option.isSome])
    | exact classifyStats_wellformed _ _ _ _ _ _ _

theorem finalGates_valid_ge (s0 : ℤ) (hs : 20 ≤ s0) (cv zStd : ℝ) (q a p : ℚ) :
    (if q < 0.02 ∧ cv < 0.5 then (⟨false, some .backgroundNoise, min (max 0 (min 100 s0)) 40⟩ : AudioAnalysisResult)
      else if cv < 0.15 then ⟨false, some .monotone, min (max 0 (min 100 s0)) 45⟩
      else if 0.95 < q then ⟨false, some .mostlySilence, min (max 0 (min 100 s0)) 30⟩
      else if p < 0.5 ∧ 2 < a then ⟨false, some .tooSlow, min (max 0 (min 100 s0)) 50⟩
      else if 15 < p then ⟨false, some .tooFast, min (max 0 (min 100 s0)) 50⟩
      else if zStd < 0.001 ∧ 3 < a then ⟨false, some .lacksPitchVariation, min (max 0 (min 100 s0)) 55⟩
      else ⟨true, none, max 0 (min 100 s0)⟩).valid = false ∨
    20 ≤ (if q < 0.02 ∧ cv < 0.5 then (⟨false, some .backgroundNoise, min (max 0 (min 100 s0)) 40⟩ : AudioAnalysisResult)
      else if cv < 0.15 then ⟨false, some .monotone, min (max 0 (min 100 s0)) 45⟩
      else if 0.95 < q then ⟨false, some .mostlySilence, min (max 0 (min 100 s0)) 30⟩
      else if p < 0.5 ∧ 2 < a then ⟨false, some .tooSlow, min (max 0 (min 100 s0)) 50⟩
      else if 15 < p then ⟨false, some .tooFast, min (max 0 (min 100 s0)) 50⟩
      else if zStd < 0.001 ∧ 3 < a then ⟨false, some .lacksPitchVariation, min (max 0 (min 100 s0)) 55⟩
      else ⟨true, none, max 0 (min 100 s0)⟩).score := by
  split_ifs <;> first
    | exact Or.inl rfl
    | (refine Or.inr ?_; simp only []; omega)

theorem deductions_ge_20 (d1 d2 d3 d4 d5 d6 : ℤ) (h1 : d1 ≤ 15) (h2 : d2 ≤ 10)
    (h3 : d3 ≤ 20) (h4 : d4 ≤ 15) (h5 : d5 ≤ 10) (h6 : d6 ≤ 10) :
    20 ≤ 100 - d1 - d2 - d3 - d4 - d5 - d6 := by
  omega

theorem classifyStats_valid_ge (gPeak : ℚ) (avg cv zStd : ℝ) (q a p : ℚ)
    (h : (classifyStats gPeak avg cv zStd q a p).valid = true) :
    20 ≤ (classifyStats gPeak avg cv zStd q a p).score := by
  have key : (classifyStats gPeak avg cv zStd q a p).valid = false ∨
      20 ≤ (classifyStats gPeak avg cv zStd q a p).score := by
    rw [classifyStats]
    by_cases h1 : avg < 0.01
    · rw [if_pos h1]
      exact Or.inl rfl
    rw [if_neg h1]
    by_cases h2 : 0.99 < gPeak ∧ 0.5 < avg
    · rw [if_pos h2]
      exact Or.inl rfl
    rw [if_neg h2]
    exact finalGates_valid_ge _
      (deductions_ge_20 _ _ _ _ _ _ (by split_ifs <;> norm_num) (by split_ifs <;> norm_num)
        (by split_ifs <;> norm_num) (by split_ifs <;> norm_num) (by split_ifs <;> norm_num)
        (by split_ifs <;> norm_num))
      cv zStd q a p
  rcases key with hk | hk
  · rw [h] at hk
    cases hk
  · exact hk

/-- C10: whenever the classifier returns a valid verdict, the score is at
least 20: after the hard gates, the deductions from the base score of 100
total at most 15 + 10 + 20 + 15 + 10 + 10 = 80. -/
theorem c10_valid_score_ge_20 (b : AudioBuffer)
    (h : (analyzeAudioQuality b).valid = true) :
    20 ≤ (analyzeAudioQuality b).score := by
  simp only [analyzeAudioQuality] at h ⊢
  split_ifs at h ⊢ <;> first
    | simp at h
    | exact classifyStats_valid_ge _ _ _ _ _ _ _ h

theorem globalPeak_eq_maxAbs_take (data : List ℚ) (ws : ℕ) :
    ∀ n, globalPeak data ws n = maxAbs (data.take (n * ws))
  | 0 => by simp [globalPeak, maxAbs]
  | n + 1 => by
      rw [globalPeak, List.range_succ, List.foldl_append]
      rw [show (n + 1) * ws = n * ws + ws by ring, List.take_add]
      rw [maxAbs, List.foldl_append]
      rw [List.foldl_cons, List.foldl_nil]
      rw [show (List.range n).foldl
          (fun g i => (windowSlice data ws i).foldl (fun g s => max g |s|) g) 0 =
          globalPeak data ws n from rfl]
      rw [globalPeak_eq_maxAbs_take data ws n, maxAbs, windowSlice]

/-- C4 counterexample: `globalPeak` is accumulated only inside the
per-window loops.  For the 3-sample signal [1/10, 1/10, 9/10] with a
2-sample window the classifier forms 1 whole window, so globalPeak = 1/10,
while the maximum absolute sample of the whole signal is 9/10 (the 9/10
lies in the discarded trailing partial window). -/
theorem c4_counterexample :
    globalPeak [1/10, 1/10, 9/10] 2 (([1/10, 1/10, 9/10] : List ℚ).length / 2) = 1/10 ∧
    maxAbs [1/10, 1/10, 9/10] = 9/10 ∧
    globalPeak [1/10, 1/10, 9/10] 2 (([1/10, 1/10, 9/10] : List ℚ).length / 2) ≠
      maxAbs [1/10, 1/10, 9/10] := by
  have e1 : globalPeak [1/10, 1/10, 9/10] 2 (([1/10, 1/10, 9/10] : List ℚ).length / 2) = 1/10 := by
    rw [show (([1/10, 1/10, 9/10] : List ℚ).length / 2) = 1 by rfl]
    rw [globalPeak, show List.range 1 = [0] from rfl, List.foldl_cons, List.foldl_nil, windowSlice]
    rw [show (([1/10, 1/10, 9/10] : List ℚ).drop (0 * 2)).take 2 = [1/10, 1/10] by rfl]
    rw [List.foldl_cons, List.foldl_cons, List.foldl_nil]
    rw [abs_of_nonneg (by norm_num : (0:ℚ) ≤ 1/10)]
    rw [max_eq_right (by norm_num : (0:ℚ) ≤ 1/10), max_self]
  have e2 : maxAbs [1/10, 1/10, 9/10] = 9/10 := by
    rw [maxAbs, List.foldl_cons, List.foldl_cons, List.foldl_cons, List.foldl_nil]
    rw [abs_of_nonneg (by norm_num : (0:ℚ) ≤ 1/10), abs_of_nonneg (by norm_num : (0:ℚ) ≤ 9/10)]
    rw [max_eq_right (by norm_num : (0:ℚ) ≤ 1/10), max_self,
      max_eq_right (by norm_num : (1/10:ℚ) ≤ 9/10)]
  refine ⟨e1, e2, ?_⟩
  rw [e1, e2]
  norm_num

/-- C4 (amended): the classifier's `globalPeak` is the maximum absolute
sample over exactly the `n * windowSize` samples of the whole windows;
samples in a trailing partial window are excluded. -/
theorem c4_amended_globalPeak (data : List ℚ) (ws n : ℕ) :
    globalPeak data ws n = maxAbs (data.take (n * ws)) :=
  globalPeak_eq_maxAbs_take data ws n

theorem range'_map_getD {α : Type} (d : α) :
    ∀ (k s : ℕ) (l : List α), s + k ≤ l.length →
      (List.range' s k).map (fun i => l.getD i d) = (l.drop s).take k
  | 0, s, l, _ => by simp
  | k + 1, s, l, h => by
      have hs : s < l.length := by omega
      rw [List.range'_succ, List.map_cons]
      rw [List.getD_eq_getElem _ _ hs]
      rw [List.drop_eq_getElem_cons hs, List.take_succ_cons]
      rw [range'_map_getD d k (s + 1) l (by omega)]

theorem quietWindows_eq_slice (rmss : List ℝ) (thr : ℝ) :
    quietWindows rmss thr = ((rmss.drop 1).dropLast).countP (fun r => decide (r < thr)) := by
  cases rmss with
  | nil => simp [quietWindows]
  | cons a t =>
      rw [quietWindows]
      rw [show ((a :: t) : List ℝ).length - 2 = t.length - 1 by
        rw [List.length_cons]; omega]
      have hmap := range'_map_getD (0 : ℝ) (t.length - 1) 1 (a :: t) (by
        rw [List.length_cons]; omega)
      have hc := List.countP_map (fun r => decide (r < thr))
        (fun i => ((a :: t) : List ℝ).getD i 0) (List.range' 1 (t.length - 1))
      simp only [Function.comp_def] at hc
      rw [← hc, hmap, List.drop_one, List.tail_cons, List.dropLast_eq_take]

/-- C5 counterexample: the quiet-window count runs over
`for (i = 1; i < length - 1; i++)` only, so the first and last windows are
never counted.  For the RMS series [0, 1, 0] (avgRMS = 1/3, threshold
max(0.4/3, 0.02) = 2/15) the classifier's quietRatio is 0/3 = 0, while the
fraction over all windows — first and last included — is 2/3. -/
theorem c5_counterexample :
    dynamicThreshold (avgRMS [(0 : ℝ), 1, 0] 3) = 2/15 ∧
    quietRatioOf [(0 : ℝ), 1, 0] ((2/15 : ℝ)) = 0 ∧
    ((([(0 : ℝ), 1, 0].countP (fun r => decide (r < (2/15 : ℝ)))) : ℚ) / 3 = 2/3) ∧
    quietRatioOf [(0 : ℝ), 1, 0] ((2/15 : ℝ)) ≠
      (([(0 : ℝ), 1, 0].countP (fun r => decide (r < (2/15 : ℝ)))) : ℚ) / 3 := by
  have havg : avgRMS [(0 : ℝ), 1, 0] 3 = 1/3 := by
    rw [avgRMS, List.sum_cons, List.sum_cons, List.sum_cons, List.sum_nil]
    norm_num
  have hthr : dynamicThreshold (avgRMS [(0 : ℝ), 1, 0] 3) = 2/15 := by
    rw [havg, dynamicThreshold, max_eq_left (by norm_num)]
    norm_num
  have hq : quietWindows [(0 : ℝ), 1, 0] ((2/15 : ℝ)) = 0 := by
    rw [quietWindows]
    rw [show (([(0 : ℝ), 1, 0] : List ℝ).length - 2) = 1 by rfl]
    rw [show List.range' 1 1 = [1] from rfl]
    rw [List.countP_cons, List.countP_nil]
    rw [show ([(0 : ℝ), 1, 0].getD 1 0) = 1 from rfl]
    simp only [decide_eq_true_eq]
    rw [if_neg (by norm_num)]
  have hcount : ([(0 : ℝ), 1, 0].countP (fun r => decide (r < (2/15 : ℝ)))) = 2 := by
    rw [List.countP_cons, List.countP_cons, List.countP_cons, List.countP_nil]
    simp only [decide_eq_true_eq]
    norm_num
  have hqr : quietRatioOf [(0 : ℝ), 1, 0] ((2/15 : ℝ)) = 0 := by
    rw [quietRatioOf, hq]
    norm_num
  refine ⟨hthr, hqr, ?_, ?_⟩
  · rw [hcount]
    norm_num
  · rw [hqr, hcount]
    norm_num

/-- C5 (amended): quietRatio is the number of quiet windows among the
interior windows only — every window except the first and the last —
divided by the total window count. -/
theorem c5_amended_quietRatioInterior (rmss : List ℝ) (thr : ℝ) :
    quietRatioOf rmss thr =
      (((rmss.drop 1).dropLast).countP (fun r => decide (r < thr)) : ℚ) / rmss.length := by
  rw [quietRatioOf, quietWindows_eq_slice]

-- Helper lemmas for evaluating the classifier on a concrete buffer with
-- one-sample windows.

theorem getD_replicate_lt {α : Type} (a d : α) {n m : ℕ} (h : m < n) :
    (List.replicate n a).getD m d = a := by
  rw [List.getD_eq_getElem _ _ (by simpa using h)]
  simp

theorem windowSlice_one (data : List ℚ) (i : ℕ) (h : i < data.length) :
    windowSlice data 1 i = [data.getD i 0] := by
  rw [windowSlice, Nat.mul_one, List.drop_eq_getElem_cons h, List.take_succ_cons,
    List.take_zero, List.getD_eq_getElem _ _ h]

theorem sqrt_ratCast_sq (x : ℚ) (hx : 0 ≤ x) :
    Real.sqrt ((x * x : ℚ) : ℝ) = (x : ℝ) := by
  rw [Rat.cast_mul]
  exact Real.sqrt_mul_self (by exact_mod_cast hx)

theorem windowRMSList_one (data : List ℚ) (hpos : ∀ x ∈ data, 0 ≤ x) :
    windowRMSList data 1 data.length = data.map Rat.cast := by
  apply List.ext_getElem
  · simp [windowRMSList]
  · intro i h1 h2
    have hi : i < data.length := by simpa [windowRMSList] using h1
    simp only [windowRMSList, List.getElem_map, List.getElem_range]
    rw [windowRMS, windowSlice_one data i hi]
    rw [show sumSquares [data.getD i 0] = data.getD i 0 * data.getD i 0 by
      rw [sumSquares, List.foldl_cons, List.foldl_nil, zero_add]]
    rw [Nat.cast_one, div_one]
    rw [show data[i] = data.getD i 0 from (List.getD_eq_getElem data 0 hi).symm]
    refine sqrt_ratCast_sq _ (hpos _ ?_)
    rw [List.getD_eq_getElem _ _ hi]
    exact List.getElem_mem hi

theorem calculateZCR_singleton (x : ℚ) : calculateZCR [x] = 0 := by
  rw [calculateZCR]
  norm_num

theorem windowZCRList_one (data : List ℚ) :
    windowZCRList data 1 data.length = List.replicate data.length 0 := by
  apply List.ext_getElem
  · simp [windowZCRList]
  · intro i h1 h2
    have hi : i < data.length := by simpa [windowZCRList] using h1
    simp only [windowZCRList, List.getElem_map, List.getElem_range, List.getElem_replicate]
    rw [windowSlice_one data i hi, calculateZCR_singleton]

theorem foldl_maxabs_replicate (a : ℚ) :
    ∀ (n : ℕ) (g : ℚ), 0 < n →
      (List.replicate n a).foldl (fun g s => max g |s|) g = max g |a|
  | 1, g, _ => by simp
  | n + 2, g, _ => by
      rw [List.replicate_succ, List.foldl_cons]
      rw [foldl_maxabs_replicate a (n + 1) (max g |a|) (by omega)]
      rw [max_assoc, max_self]

theorem range'_split_interior :
    List.range' 1 58 = List.range' 1 12 ++ List.range' 13 46 := by
  have h := List.range'_append 1 12 46 1
  simpa using h.symm

theorem sum_map_ratCast (l : List ℚ) :
    (l.map (Rat.cast : ℚ → ℝ)).sum = ((l.sum : ℚ) : ℝ) := by
  induction l with
  | nil => simp
  | cons a t ih =>
      rw [List.map_cons, List.sum_cons, List.sum_cons, ih, Rat.cast_add]

/-- A concrete 3-second signal at 20 Hz (one-sample windows): one leading
zero, 12 frames at amplitude 1/2, 47 trailing zeros. -/
def witnessData : List ℚ := [0] ++ (List.replicate 12 (1/2) ++ List.replicate 47 0)

/-- The corresponding mono buffer. -/
def witnessBuffer : AudioBuffer := ⟨20, [witnessData]⟩

/-- The window RMS series of `witnessData` (singleton windows). -/
noncomputable def witnessRMS : List ℝ := [0] ++ (List.replicate 12 (1/2) ++ List.replicate 47 0)

theorem witnessData_length : witnessData.length = 60 := by
  simp [witnessData]

theorem witnessRMS_length : witnessRMS.length = 60 := by
  simp [witnessRMS]

theorem witnessData_nonneg : ∀ x ∈ witnessData, 0 ≤ x := by
  intro x hx
  simp [witnessData, List.mem_replicate] at hx
  rcases hx with h | h | h <;>
    simp [h]

theorem witnessRMS_eq : windowRMSList witnessData 1 60 = witnessRMS := by
  have h := windowRMSList_one witnessData witnessData_nonneg
  rw [witnessData_length] at h
  rw [h, witnessData, witnessRMS]
  simp only [List.map_append, List.map_replicate, List.map_cons, List.map_nil]
  norm_num

theorem witnessZCR_eq : windowZCRList witnessData 1 60 = List.replicate 60 0 := by
  have h := windowZCRList_one witnessData
  rw [witnessData_length] at h
  exact h

theorem witnessRMS_getD_zero : witnessRMS.getD 0 0 = 0 := rfl

theorem witnessRMS_getD_low (i : ℕ) (h1 : 1 ≤ i) (h2 : i ≤ 12) :
    witnessRMS.getD i 0 = 1/2 := by
  rw [witnessRMS, List.getD_append_right _ _ _ _ (by
    simp only [List.length_cons, List.length_nil]
    omega)]
  rw [List.getD_append _ _ _ _ (by
    simp only [List.length_cons, List.length_nil, List.length_replicate]
    omega)]
  exact getD_replicate_lt _ _ (by
    simp only [List.length_cons, List.length_nil]
    omega)

theorem witnessRMS_getD_high (i : ℕ) (h : 13 ≤ i) : witnessRMS.getD i 0 = 0 := by
  rcases lt_or_le i 60 with h60 | h60
  · rw [witnessRMS, List.getD_append_right _ _ _ _ (by
      simp only [List.length_cons, List.length_nil]
      omega)]
    rw [List.getD_append_right _ _ _ _ (by
      simp only [List.length_cons, List.length_nil, List.length_replicate]
      omega)]
    exact getD_replicate_lt _ _ (by
      simp only [List.length_cons, List.length_nil, List.length_replicate]
      omega)
  · exact List.getD_eq_default _ _ (by rw [witnessRMS_length]; omega)

theorem witness_quietWindows : quietWindows witnessRMS ((1/25 : ℝ)) = 46 := by
  rw [quietWindows, witnessRMS_length]
  rw [show (60 : ℕ) - 2 = 58 from rfl, range'_split_interior, List.countP_append]
  rw [List.countP_eq_zero.mpr, List.countP_eq_length.mpr]
  · simp [List.length_range']
  · intro i hi
    rw [List.mem_range'_1] at hi
    rw [decide_eq_true_eq, witnessRMS_getD_high i (by omega)]
    norm_num
  · intro i hi
    rw [List.mem_range'_1] at hi
    rw [decide_eq_true_eq, witnessRMS_getD_low i (by omega) (by omega)]
    norm_num

theorem witness_activeCount : activeWindowsCount witnessRMS ((1/25 : ℝ)) = 12 := by
  rw [activeWindowsCount, witnessRMS_length]
  rw [show (60 : ℕ) - 2 = 58 from rfl, range'_split_interior, List.countP_append]
  rw [List.countP_eq_length.mpr, List.countP_eq_zero.mpr]
  · simp [List.length_range']
  · intro i hi
    rw [List.mem_range'_1] at hi
    rw [decide_eq_true_eq, witnessRMS_getD_high i (by omega)]
    norm_num
  · intro i hi
    rw [List.mem_range'_1] at hi
    rw [decide_eq_true_eq, witnessRMS_getD_low i (by omega) (by omega)]
    norm_num

theorem witness_peakCount : peakCount witnessRMS ((1/10 : ℝ)) ((1/25 : ℝ)) = 0 := by
  rw [peakCount, witnessRMS_length]
  rw [show (60 : ℕ) - 2 = 58 from rfl]
  rw [List.countP_eq_zero]
  intro i hi
  rw [List.mem_range'_1] at hi
  rw [decide_eq_true_eq]
  rintro ⟨hA, hB, hC, hD⟩
  rcases lt_or_le i 13 with h13 | h13
  · rcases lt_or_le i 12 with h12 | h12
    · rw [witnessRMS_getD_low i (by omega) (by omega),
        witnessRMS_getD_low (i + 1) (by omega) (by omega)] at hC
      exact absurd hC (by norm_num)
    · have hi12 : i = 12 := by omega
      rw [hi12, witnessRMS_getD_low 11 (by omega) (by omega),
        witnessRMS_getD_low 12 (by omega) (by omega)] at hB
      exact absurd hB (by norm_num)
  · rw [witnessRMS_getD_high i (by omega)] at hA
    exact absurd hA (by norm_num)

theorem witness_activeZCRList :
    activeZCRList witnessRMS (List.replicate 60 0) ((1/25 : ℝ)) = List.replicate 12 0 := by
  rw [activeZCRList, witnessRMS_length]
  rw [show (60 : ℕ) - 2 = 58 from rfl, range'_split_interior, List.filter_append]
  rw [List.filter_eq_self.mpr, List.filter_eq_nil_iff.mpr]
  · rw [List.append_nil]
    have hmapz : ∀ i ∈ List.range' 1 12,
        (List.replicate 60 (0 : ℚ)).getD i 0 = (fun _ => (0 : ℚ)) i := by
      intro i hi
      rw [List.mem_range'_1] at hi
      exact getD_replicate_lt _ _ (by omega)
    rw [List.map_congr_left hmapz, List.map_const']
    simp [List.length_range']
  · intro i hi
    rw [List.mem_range'_1] at hi
    rw [decide_eq_true_eq, witnessRMS_getD_high i (by omega)]
    norm_num
  · intro i hi
    rw [List.mem_range'_1] at hi
    rw [decide_eq_true_eq, witnessRMS_getD_low i (by omega) (by omega)]
    norm_num

theorem witness_zcrStdDev : zcrStdDev (List.replicate 12 0) = 0 := by
  rw [zcrStdDev, if_pos (by simp)]
  rw [show avgZCR (List.replicate 12 0) = 0 by
    rw [avgZCR, if_pos (by simp)]
    simp]
  rw [show (List.replicate 12 (0:ℚ)).map (fun z => (z - 0) ^ 2) = List.replicate 12 0 by
    rw [List.map_replicate]
    norm_num]
  simp

theorem witness_globalPeak : globalPeak witnessData 1 60 = 1/2 := by
  rw [globalPeak_eq_maxAbs_take]
  rw [show (60 : ℕ) * 1 = 60 from rfl, ← witnessData_length, List.take_length]
  rw [maxAbs, witnessData, List.foldl_append, List.foldl_append]
  rw [List.foldl_cons, List.foldl_nil]
  rw [abs_zero, max_self]
  rw [foldl_maxabs_replicate _ 12 _ (by omega), foldl_maxabs_replicate _ 47 _ (by omega)]
  rw [abs_zero, abs_of_nonneg (by norm_num : (0:ℚ) ≤ 1/2)]
  rw [max_eq_right (by norm_num : (0:ℚ) ≤ 1/2), max_eq_left (by norm_num : (0:ℚ) ≤ 1/2)]

theorem witness_avgRMS : avgRMS witnessRMS 60 = 1/10 := by
  rw [avgRMS, witnessRMS]
  rw [List.sum_append, List.sum_append]
  rw [List.sum_cons, List.sum_nil, List.sum_replicate, List.sum_replicate]
  rw [nsmul_eq_mul, nsmul_eq_mul]
  norm_num

theorem witness_dynThr : dynamicThreshold ((1/10 : ℝ)) = 1/25 := by
  rw [dynamicThreshold, max_eq_left (by norm_num)]
  norm_num

theorem witness_stdDevRMS : stdDevRMS witnessRMS ((1/10 : ℝ)) = 1/5 := by
  rw [stdDevRMS, witnessRMS_length]
  rw [show witnessRMS.map (fun r => (r - (1/10 : ℝ)) ^ 2) =
      [(1/100 : ℝ)] ++ (List.replicate 12 (4/25) ++ List.replicate 47 (1/100)) by
    rw [witnessRMS, List.map_append, List.map_append, List.map_cons, List.map_nil,
      List.map_replicate, List.map_replicate]
    norm_num]
  rw [List.sum_append, List.sum_append, List.sum_cons, List.sum_nil,
    List.sum_replicate, List.sum_replicate, nsmul_eq_mul, nsmul_eq_mul]
  rw [show ((1/100 : ℝ) + 0 + ((12 : ℕ) * (4/25) + (47 : ℕ) * (1/100))) / (60 : ℕ) =
      (1/5 : ℝ) ^ 2 by push_cast; norm_num]
  exact Real.sqrt_sq (by norm_num)

theorem witness_quietRatioVal : quietRatioOf witnessRMS ((1/25 : ℝ)) = 23/30 := by
  rw [quietRatioOf, witness_quietWindows, witnessRMS_length]
  norm_num

theorem analyze_witnessBuffer_eval :
    analyzeAudioQuality witnessBuffer = ⟨true, none, 80⟩ := by
  have hch : witnessBuffer.getChannelData 0 = witnessData := rfl
  have hdur : witnessBuffer.duration = 3 := by
    rw [AudioBuffer.duration, AudioBuffer.frameCount, hch, witnessData_length]
    rw [show witnessBuffer.sampleRate = 20 from rfl]
    norm_num
  simp only [analyzeAudioQuality]
  rw [hch]
  rw [show witnessBuffer.sampleRate = 20 from rfl]
  rw [if_neg (by rw [hdur]; norm_num), if_neg (by rw [hdur]; norm_num)]
  rw [show windowSizeSamples 20 = 1 from rfl]
  rw [witnessData_length]
  rw [show (60 : ℕ) / 1 = 60 from rfl]
  rw [witnessRMS_eq, witnessZCR_eq, witness_avgRMS, witness_dynThr]
  rw [witness_globalPeak, witness_quietRatioVal, witness_activeCount, witness_peakCount,
    witness_activeZCRList, witness_zcrStdDev, witness_stdDevRMS]
  rw [show ((12 : ℕ) : ℚ) * 0.05 = 3/5 by norm_num]
  rw [if_pos (by norm_num : (0:ℚ) < 3/5)]
  rw [show ((0 : ℕ) : ℚ) / (3/5 : ℚ) = 0 by norm_num]
  rw [show (1/5 : ℝ) / (1/10 : ℝ) = 2 by norm_num]
  rw [classifyStats]
  rw [if_neg (by norm_num : ¬ ((1/10 : ℝ) < 0.01))]
  rw [if_neg (by norm_num : ¬ ((0.99 : ℚ) < 1/2 ∧ (0.5 : ℝ) < 1/10))]
  rw [if_neg (by norm_num : ¬ ((1/10 : ℝ) < 0.05)), if_neg (by norm_num : ¬ ((1/10 : ℝ) < 0.1))]
  rw [if_neg (by norm_num : ¬ ((0.95 : ℚ) < 1/2))]
  rw [if_neg (by norm_num : ¬ ((23/30 : ℚ) < 0.15))]
  rw [if_neg (by norm_num : ¬ ((2 : ℝ) < 0.25))]
  rw [if_pos (by norm_num : (0 : ℝ) < 0.005)]
  rw [if_pos (by norm_num : (0 : ℚ) < 1.5 ∨ (8 : ℚ) < 0)]
  rw [if_neg (by norm_num : ¬ ((23/30 : ℚ) < 0.02 ∧ (2 : ℝ) < 0.5))]
  rw [if_neg (by norm_num : ¬ ((2 : ℝ) < 0.15))]
  rw [if_neg (by norm_num : ¬ ((0.95 : ℚ) < 23/30))]
  rw [if_neg (by norm_num : ¬ ((0 : ℚ) < 0.5 ∧ (2 : ℚ) < 3/5))]
  rw [if_neg (by norm_num : ¬ ((15 : ℚ) < 0))]
  rw [if_neg (by norm_num : ¬ ((0 : ℝ) < 0.001 ∧ (3 : ℚ) < 3/5))]
  rw [AudioAnalysisResult.mk.injEq]
  refine ⟨rfl, rfl, ?_⟩
  norm_num

/-- C10 witness: the classifier accepts the 3-second witness buffer
(valid, score 80), and the theorem yields the bound there. -/
theorem c10_valid_score_ge_20_witness :
    (analyzeAudioQuality witnessBuffer).valid = true ∧
    20 ≤ (analyzeAudioQuality witnessBuffer).score := by
  have hv : (analyzeAudioQuality witnessBuffer).valid = true := by
    rw [analyze_witnessBuffer_eval]
  exact ⟨hv, c10_valid_score_ge_20 witnessBuffer hv⟩
